import Mathlib

/-!
Shallow embedding of `src/server.js` (apphorde/chess): a single-endpoint
relay that forwards a chess position and move history to an external
chat-completion API and extracts a UCI move token from the textual reply.

The embedding covers:
  * the move regex `\b[a-h][1-8][a-h][1-8][qrbn]?\b` with the `i` flag,
    as a leftmost-match scanner over lists of characters;
  * `reply.trim()`, `m[0].replace("-", "")` (JS `replace` with a string
    pattern replaces only the first occurrence);
  * the prompt builder (the `system` and `user` template literals,
    including `JSON.stringify` of the serialized history array);
  * the `POST /ai-move` handler as a total function from the request
    fields and an abstracted upstream response to an HTTP outcome that
    also records how many outbound calls were made and whether move
    extraction was reached.
-/

/-- A move-history entry, the `{ from, to }` objects of the request body.
JS field `from` is a Lean keyword, hence `fromSq` / `toSq`. -/
structure HistEntry where
  fromSq : String
  toSq : String
deriving DecidableEq, Repr

/-- JS word character for `\b`: `[A-Za-z0-9_]`. -/
def isWordChar (c : Char) : Bool :=
  c.isAlphanum || c == '_'

/-- `[a-h]` under the `i` flag: a file letter, either case. -/
def isFileChar (c : Char) : Bool :=
  ('a' ≤ c && c ≤ 'h') || ('A' ≤ c && c ≤ 'H')

/-- `[1-8]`: a rank digit. -/
def isRankChar (c : Char) : Bool :=
  '1' ≤ c && c ≤ '8'

/-- `[qrbn]` under the `i` flag: a promotion piece letter, either case. -/
def isPromoChar (c : Char) : Bool :=
  c == 'q' || c == 'r' || c == 'b' || c == 'n' ||
  c == 'Q' || c == 'R' || c == 'B' || c == 'N'

/-- The trailing `\b`: holds after a word character when the remaining
input is empty or starts with a non-word character. -/
def endBoundary : List Char → Bool
  | [] => true
  | c :: _ => !isWordChar c

/-- The leading `\b` at a position whose character is a word character:
holds at the start of the input or after a non-word character. -/
def startBoundary : Option Char → Bool
  | none => true
  | some c => !isWordChar c

/-- Attempt of the body `[a-h][1-8][a-h][1-8][qrbn]?\b` of `moveMatcher`
at the current position (the leading `\b` is checked by the caller).
The optional `[qrbn]` is greedy: a five-character match is tried first;
if its trailing `\b` fails the engine backtracks to the four-character
match, whose trailing `\b` then requires a non-word continuation. -/
def matchCore : List Char → Option (List Char)
  | c1 :: c2 :: c3 :: c4 :: c5 :: rest =>
    if isFileChar c1 && isRankChar c2 && isFileChar c3 && isRankChar c4 then
      if isPromoChar c5 && endBoundary rest then
        some [c1, c2, c3, c4, c5]
      else if !isWordChar c5 then
        some [c1, c2, c3, c4]
      else
        none
    else
      none
  | [c1, c2, c3, c4] =>
    if isFileChar c1 && isRankChar c2 && isFileChar c3 && isRankChar c4 then
      some [c1, c2, c3, c4]
    else
      none
  | _ => none

/-- Leftmost match of `moveMatcher` (`String.prototype.match` without the
`g` flag): the pattern is tried at each position from the left, with
`prev` the character before the current position for the leading `\b`. -/
def scanMove (prev : Option Char) : List Char → Option (List Char)
  | [] => none
  | c :: rest =>
    if startBoundary prev then
      match matchCore (c :: rest) with
      | some m => some m
      | none => scanMove (some c) rest
    else
      scanMove (some c) rest

/-- Drop leading whitespace characters. -/
def dropLeadingWS : List Char → List Char
  | [] => []
  | c :: rest => if c.isWhitespace then dropLeadingWS rest else c :: rest

/-- `reply.trim()`: whitespace removed from both ends. -/
def trimChars (cs : List Char) : List Char :=
  (dropLeadingWS (dropLeadingWS cs).reverse).reverse

/-- `m[0].replace("-", "")`: JS `replace` with a string pattern removes
only the first occurrence of `"-"`. -/
def replaceFirstHyphen : List Char → List Char
  | [] => []
  | c :: rest => if c == '-' then rest else c :: replaceFirstHyphen rest

/-- The move extractor of the handler (lines 78-79 of `server.js`):
`reply.trim().match(moveMatcher)`, then the first hyphen removed from
the matched substring; `none` when there is no match. -/
def extractMove (reply : String) : Option String :=
  match scanMove none (trimChars reply.data) with
  | some m => some (String.mk (replaceFirstHyphen m))
  | none => none

/-- Shape of a string matched by the body of `moveMatcher`: exactly two
file-rank coordinate pairs, optionally followed by one promotion letter. -/
def isMoveToken : List Char → Bool
  | [c1, c2, c3, c4] =>
    isFileChar c1 && isRankChar c2 && isFileChar c3 && isRankChar c4
  | [c1, c2, c3, c4, c5] =>
    isFileChar c1 && isRankChar c2 && isFileChar c3 && isRankChar c4 &&
      isPromoChar c5
  | _ => false

/-- The fixed system instruction (line 38 of `server.js`). -/
def systemInstr : String :=
  "You are a chess move generator. You MUST respond with exactly one move in UCI format (e.g. e2e4, g1f3, e7e8q for promotion) and nothing else. Do NOT include commentary, explanation, JSON, or any extra text. If you cannot find a legal move, respond with PASS. Use standard algebraic coordinates: a1..h8. Assume position FEN provided is to move. Use reasonable chess knowledge but do not invent illegal moves. Avoid castling if unclear."

/-- One serialized history entry: the template `i+1. from-to`
of line 40 of `server.js`. -/
def histFmt (i : Nat) (e : HistEntry) : String :=
  toString (i + 1) ++ ". " ++ e.fromSq ++ "-" ++ e.toSq

/-- `Array.prototype.map` with the element index, as used on `history`. -/
def mapWithIndex (f : Nat → HistEntry → String) : Nat → List HistEntry → List String
  | _, [] => []
  | i, e :: t => f i e :: mapWithIndex f (i + 1) t

/-- `history.map(({from, to}, i) => ...)` of line 40 of `server.js`. -/
def serializeHistory (h : List HistEntry) : List String :=
  mapWithIndex histFmt 0 h

/-- One hexadecimal digit, lower case, for JSON control-character escapes. -/
def hexDigit (n : Nat) : Char :=
  if n < 10 then Char.ofNat ('0'.toNat + n) else Char.ofNat ('a'.toNat + (n - 10))

/-- `JSON.stringify` escaping of a single character inside a string. -/
def jsonEscapeChar (c : Char) : String :=
  if c = '"' then "\\\""
  else if c = '\\' then "\\\\"
  else if c = '\x08' then "\\b"
  else if c = '\x09' then "\\t"
  else if c = '\x0a' then "\\n"
  else if c = '\x0c' then "\\f"
  else if c = '\x0d' then "\\r"
  else if c.toNat < 32 then
    "\\u00" ++ String.mk [hexDigit (c.toNat / 16), hexDigit (c.toNat % 16)]
  else String.singleton c

/-- `JSON.stringify` of a single string value. -/
def jsonQuote (s : String) : String :=
  "\"" ++ String.join (s.data.map jsonEscapeChar) ++ "\""

/-- `JSON.stringify` of an array of strings. -/
def jsonStringifyArr (xs : List String) : String :=
  "[" ++ String.intercalate "," (xs.map jsonQuote) ++ "]"

/-- The `user` template literal of lines 39-41 of `server.js`. Note that
the source interpolates only the serialized history: the `fen` value is
not inserted after the `FEN:` label. -/
def userInstr (history : List HistEntry) : String :=
  "FEN: Move history: " ++ jsonStringifyArr (serializeHistory history) ++
    "\nRespond with one UCI move only."

/-- JS truthiness of the destructured `fen` field: `!fen` is true when
the field is absent (`undefined`) or the empty string. -/
def fenPresent : Option String → Bool
  | none => false
  | some f => if f = "" then false else true

/-- Message of the `TypeError` thrown by `history.map` when `history` is
absent (`undefined`), as caught by the top-level `catch` and returned
via `res.status(500).send(err.message)`. -/
def typeErrorMessage : String :=
  "Cannot read properties of undefined (reading \x27map\x27)"

/-- The upstream `fetch` response, abstracted: `ok` is `r.ok`, `errText`
is what `await r.text()` resolves to on the error path, and `content` is
the payload `j.choices && j.choices[0] && j.choices[0].message &&
j.choices[0].message.content` (`none` when that chain is missing). -/
structure UpstreamResponse where
  ok : Bool
  errText : String
  content : Option String
deriving DecidableEq, Repr

/-- A response body: `res.send` of a text, or `res.json` of a
`{ move, raw }` object (`none` fields are absent keys). -/
inductive RespBody where
  | text (s : String)
  | json (move : Option String) (raw : Option String)
deriving DecidableEq, Repr

/-- Observable outcome of one `POST /ai-move` request: HTTP status and
body, the number of outbound upstream calls made, and whether the
move-extraction step (lines 78-79) was reached. -/
structure Outcome where
  status : Nat
  body : RespBody
  upstreamCalls : Nat
  extractionAttempted : Bool
deriving DecidableEq, Repr

/-- The `POST /ai-move` handler (lines 29-89 of `server.js`) as a total
function. Control flow follows the source: the `fen` presence check,
then the prompt construction (where `history.map` throws when `history`
is absent, caught by the top-level `catch` as a 500), then the single
outbound call, the `r.ok` check, the payload-presence check (`!reply`
is also true for an empty content string), then extraction, with a
falsy extracted move answered as `{ move: null, raw: reply }`. -/
def aiMove (fen : Option String) (history : Option (List HistEntry))
    (upstream : UpstreamResponse) : Outcome :=
  if fenPresent fen then
    match history with
    | none =>
      { status := 500, body := .text typeErrorMessage,
        upstreamCalls := 0, extractionAttempted := false }
    | some _ =>
      if upstream.ok then
        match upstream.content with
        | none =>
          { status := 500, body := .text "Empty reply from OpenAI",
            upstreamCalls := 1, extractionAttempted := false }
        | some reply =>
          if reply = "" then
            { status := 500, body := .text "Empty reply from OpenAI",
              upstreamCalls := 1, extractionAttempted := false }
          else
            match extractMove reply with
            | some mv =>
              if mv = "" then
                { status := 200, body := .json none (some reply),
                  upstreamCalls := 1, extractionAttempted := true }
              else
                { status := 200, body := .json (some mv) none,
                  upstreamCalls := 1, extractionAttempted := true }
            | none =>
              { status := 200, body := .json none (some reply),
                upstreamCalls := 1, extractionAttempted := true }
      else
        { status := 500, body := .text ("OpenAI API error: " ++ upstream.errText),
          upstreamCalls := 1, extractionAttempted := false }
  else
    { status := 400, body := .text "Missing next move",
      upstreamCalls := 0, extractionAttempted := false }

/-- Does `hay` start with `needle`? -/
def startsWithL (needle hay : List Char) : Bool :=
  match needle, hay with
  | [], _ => true
  | _ :: _, [] => false
  | a :: as, b :: bs => a == b && startsWithL as bs

/-- Does `needle` occur as a contiguous substring of the second list? -/
def containsL (needle : List Char) : List Char → Bool
  | [] => startsWithL needle []
  | c :: t => startsWithL needle (c :: t) || containsL needle t

/-- Substring occurrence on strings. -/
def containsStr (hay needle : String) : Bool :=
  containsL needle.data hay.data

theorem isFileChar_ne_hyphen {c : Char} (h : isFileChar c = true) : c ≠ '-' := by
  intro he; subst he; exact absurd h (by decide)

theorem isRankChar_ne_hyphen {c : Char} (h : isRankChar c = true) : c ≠ '-' := by
  intro he; subst he; exact absurd h (by decide)

theorem isPromoChar_ne_hyphen {c : Char} (h : isPromoChar c = true) : c ≠ '-' := by
  intro he; subst he; exact absurd h (by decide)

theorem isMoveToken_no_hyphen {m : List Char} (h : isMoveToken m = true) :
    ∀ c ∈ m, c ≠ '-' := by
  match m with
  | [c1, c2, c3, c4] =>
    simp only [isMoveToken, Bool.and_eq_true] at h
    obtain ⟨⟨⟨h1, h2⟩, h3⟩, h4⟩ := h
    intro c hc
    simp only [List.mem_cons, List.not_mem_nil, or_false] at hc
    rcases hc with rfl | rfl | rfl | rfl
    · exact isFileChar_ne_hyphen h1
    · exact isRankChar_ne_hyphen h2
    · exact isFileChar_ne_hyphen h3
    · exact isRankChar_ne_hyphen h4
  | [c1, c2, c3, c4, c5] =>
    simp only [isMoveToken, Bool.and_eq_true] at h
    obtain ⟨⟨⟨⟨h1, h2⟩, h3⟩, h4⟩, h5⟩ := h
    intro c hc
    simp only [List.mem_cons, List.not_mem_nil, or_false] at hc
    rcases hc with rfl | rfl | rfl | rfl | rfl
    · exact isFileChar_ne_hyphen h1
    · exact isRankChar_ne_hyphen h2
    · exact isFileChar_ne_hyphen h3
    · exact isRankChar_ne_hyphen h4
    · exact isPromoChar_ne_hyphen h5
  | [] => exact absurd h (by simp [isMoveToken])
  | [_] => exact absurd h (by simp [isMoveToken])
  | [_, _] => exact absurd h (by simp [isMoveToken])
  | [_, _, _] => exact absurd h (by simp [isMoveToken])
  | _ :: _ :: _ :: _ :: _ :: _ :: _ => exact absurd h (by simp [isMoveToken])

theorem replaceFirstHyphen_eq_of_no_hyphen {m : List Char}
    (h : ∀ c ∈ m, c ≠ '-') : replaceFirstHyphen m = m := by
  induction m with
  | nil => rfl
  | cons c t ih =>
    have hc : (c == '-') = false :=
      beq_eq_false_iff_ne.mpr (h c (List.mem_cons_self c t))
    simp only [replaceFirstHyphen, hc, Bool.false_eq_true, if_false]
    rw [ih (fun d hd => h d (List.mem_cons_of_mem c hd))]

theorem matchCore_isMoveToken : ∀ {cs m : List Char},
    matchCore cs = some m → isMoveToken m = true := by
  intro cs m h
  match cs with
  | c1 :: c2 :: c3 :: c4 :: c5 :: rest =>
    simp only [matchCore] at h
    split at h
    · rename_i hg
      split at h
      · rename_i hp
        cases h
        simp only [isMoveToken, Bool.and_eq_true] at hg ⊢
        exact ⟨hg, (Bool.and_eq_true .. ▸ hp).1⟩
      · split at h
        · cases h
          simpa [isMoveToken, Bool.and_eq_true] using hg
        · exact absurd h (by simp)
    · exact absurd h (by simp)
  | [c1, c2, c3, c4] =>
    simp only [matchCore] at h
    split at h
    · rename_i hg
      cases h
      simpa [isMoveToken, Bool.and_eq_true] using hg
    · exact absurd h (by simp)
  | [] => exact absurd h (by simp [matchCore])
  | [_] => exact absurd h (by simp [matchCore])
  | [_, _] => exact absurd h (by simp [matchCore])
  | [_, _, _] => exact absurd h (by simp [matchCore])

theorem scanMove_isMoveToken : ∀ (prev : Option Char) (cs m : List Char),
    scanMove prev cs = some m → isMoveToken m = true := by
  intro prev cs
  induction cs generalizing prev with
  | nil => intro m h; exact absurd h (by simp [scanMove])
  | cons c t ih =>
    intro m h
    simp only [scanMove] at h
    split at h
    · split at h
      · rename_i m0 heq
        cases h
        exact matchCore_isMoveToken heq
      · exact ih (some c) m h
    · exact ih (some c) m h

theorem extractMove_of_scan {s : String} {m : List Char}
    (h : scanMove none (trimChars s.data) = some m) :
    extractMove s = some (String.mk m) := by
  have ht := scanMove_isMoveToken none (trimChars s.data) m h
  simp only [extractMove, h]
  rw [replaceFirstHyphen_eq_of_no_hyphen (isMoveToken_no_hyphen ht)]

theorem extractMove_shape {s mv : String} (h : extractMove s = some mv) :
    isMoveToken mv.data = true := by
  unfold extractMove at h
  split at h
  · rename_i m heq
    have ht := scanMove_isMoveToken none (trimChars s.data) m heq
    cases h
    show isMoveToken (replaceFirstHyphen m) = true
    rwa [replaceFirstHyphen_eq_of_no_hyphen (isMoveToken_no_hyphen ht)]
  · exact absurd h (by simp)

theorem startsWithL_self : ∀ l : List Char, startsWithL l l = true := by
  intro l
  induction l with
  | nil => rfl
  | cons c t ih => simp [startsWithL, ih]

theorem containsL_append_left : ∀ (pre l : List Char),
    containsL l (pre ++ l) = true := by
  intro pre l
  induction pre with
  | nil =>
    cases l with
    | nil => rfl
    | cons c t => simp [containsL, startsWithL_self]
  | cons p ps ih =>
    rw [List.cons_append]
    show (startsWithL l (p :: (ps ++ l)) || containsL l (ps ++ l)) = true
    rw [ih, Bool.or_true]

theorem mapWithIndex_length (f : Nat → HistEntry → String) :
    ∀ (h : List HistEntry) (k : Nat), (mapWithIndex f k h).length = h.length := by
  intro h
  induction h with
  | nil => intro k; rfl
  | cons e t ih => intro k; simp [mapWithIndex, ih]

theorem mapWithIndex_get? (f : Nat → HistEntry → String) :
    ∀ (h : List HistEntry) (k i : Nat),
      (mapWithIndex f k h).get? i = (h.get? i).map (f (k + i)) := by
  intro h
  induction h with
  | nil => intro k i; simp [mapWithIndex]
  | cons e t ih =>
    intro k i
    cases i with
    | zero => simp [mapWithIndex]
    | succ n =>
      have hadd : k + 1 + n = k + (n + 1) := by omega
      simp only [mapWithIndex, List.get?_cons_succ, ih (k + 1) n, hadd]

/-- C1: the claim states that the fen supplied by the client occurs as a
substring of the built user instruction. The source template (line 39 of
`server.js`) never interpolates `fen` after its `FEN:` label, so for the
initial-position FEN and an empty history the user instruction does not
contain the fen value. -/
theorem c1_fen_absent_from_user_instruction :
    containsStr (userInstr [])
      "rnbqkbnr/pppppppp/8/8/8/8/PPPPPPPP/RNBQKBNR w KQkq - 0 1" = false := by
  decide

/-- C2 counterexample: the claim says the reply `Sure — e7-e8Q` yields the
extracted move `e7e8Q`; in the code the move pattern admits no hyphen, so
this reply has no match at all and extraction returns nothing. -/
theorem c2_hyphenated_reply_yields_no_move :
    extractMove "Sure — e7-e8Q" = none := by
  decide

/-- C2 (amended): for every reply whose trimmed text contains a match of
the move pattern (which can never include a hyphen), the extractor
returns exactly that leftmost matched substring, original case preserved,
the hyphen-removal step being a no-op. -/
theorem c2_extractor_returns_match (s : String) (m : List Char)
    (h : scanMove none (trimChars s.data) = some m) :
    extractMove s = some (String.mk m) ∧ isMoveToken m = true :=
  ⟨extractMove_of_scan h, scanMove_isMoveToken none (trimChars s.data) m h⟩

theorem c2_extractor_returns_match_witness :
    extractMove "OK: e7e8Q now" = some (String.mk ['e', '7', 'e', '8', 'Q']) ∧
      isMoveToken ['e', '7', 'e', '8', 'Q'] = true :=
  c2_extractor_returns_match "OK: e7e8Q now" ['e', '7', 'e', '8', 'Q'] (by decide)

/-- C3: a successful upstream status with a non-empty text payload in
which no move pattern matches is answered 200 with `move` null and `raw`
the original reply, never an error status. -/
theorem c3_no_match_soft_failure (fen : String) (hs : List HistEntry)
    (u : UpstreamResponse) (reply : String)
    (hfen : fen ≠ "") (hok : u.ok = true) (hc : u.content = some reply)
    (hr : reply ≠ "") (hm : extractMove reply = none) :
    aiMove (some fen) (some hs) u =
      { status := 200, body := .json none (some reply),
        upstreamCalls := 1, extractionAttempted := true } := by
  simp [aiMove, fenPresent, hfen, hok, hc, hr, hm]

theorem c3_no_match_soft_failure_witness :
    aiMove (some "fen") (some [])
        { ok := true, errText := "", content := some "I cannot determine a move" } =
      { status := 200, body := .json none (some "I cannot determine a move"),
        upstreamCalls := 1, extractionAttempted := true } :=
  c3_no_match_soft_failure "fen" []
    { ok := true, errText := "", content := some "I cannot determine a move" }
    "I cannot determine a move" (by decide) (by decide) (by decide) (by decide)
    (by decide)

/-- C4: a request without a fen (absent field or empty string) is
answered 400 with a short diagnostic and no outbound upstream call is
made. -/
theorem c4_missing_fen_400 (fen : Option String)
    (history : Option (List HistEntry)) (u : UpstreamResponse)
    (h : fen = none ∨ fen = some "") :
    aiMove fen history u =
      { status := 400, body := .text "Missing next move",
        upstreamCalls := 0, extractionAttempted := false } := by
  rcases h with rfl | rfl <;> simp [aiMove, fenPresent]

theorem c4_missing_fen_400_witness :
    aiMove none (some []) { ok := true, errText := "", content := some "e2e4" } =
      { status := 400, body := .text "Missing next move",
        upstreamCalls := 0, extractionAttempted := false } :=
  c4_missing_fen_400 none (some [])
    { ok := true, errText := "", content := some "e2e4" } (Or.inl rfl)

/-- C5: a non-success upstream status is answered 500 with a body that
contains the text retrieved from the upstream error response, with a
single outbound call and no move extraction attempted. -/
theorem c5_upstream_error_500 (fen : String) (hs : List HistEntry)
    (u : UpstreamResponse) (hfen : fen ≠ "") (hok : u.ok = false) :
    aiMove (some fen) (some hs) u =
      { status := 500, body := .text ("OpenAI API error: " ++ u.errText),
        upstreamCalls := 1, extractionAttempted := false } ∧
    containsStr ("OpenAI API error: " ++ u.errText) u.errText = true := by
  constructor
  · simp [aiMove, fenPresent, hfen, hok]
  · show containsL u.errText.data ("OpenAI API error: " ++ u.errText).data = true
    rw [String.data_append]
    exact containsL_append_left _ _

theorem c5_upstream_error_500_witness :
    (aiMove (some "fen") (some [])
        { ok := false, errText := "Too Many Requests", content := none } =
      { status := 500, body := .text ("OpenAI API error: " ++ "Too Many Requests"),
        upstreamCalls := 1, extractionAttempted := false }) ∧
    containsStr ("OpenAI API error: " ++ "Too Many Requests") "Too Many Requests" = true :=
  c5_upstream_error_500 "fen" []
    { ok := false, errText := "Too Many Requests", content := none }
    (by decide) (by decide)

/-- C6: a successful upstream status whose body yields no extractable
text payload (missing content chain or empty content string) is answered
500 with a diagnostic, and move extraction is never reached. -/
theorem c6_empty_reply_500 (fen : String) (hs : List HistEntry)
    (u : UpstreamResponse) (hfen : fen ≠ "") (hok : u.ok = true)
    (hc : u.content = none ∨ u.content = some "") :
    aiMove (some fen) (some hs) u =
      { status := 500, body := .text "Empty reply from OpenAI",
        upstreamCalls := 1, extractionAttempted := false } := by
  rcases hc with hc | hc <;> simp [aiMove, fenPresent, hfen, hok, hc]

theorem c6_empty_reply_500_witness :
    aiMove (some "fen") (some []) { ok := true, errText := "", content := none } =
      { status := 500, body := .text "Empty reply from OpenAI",
        upstreamCalls := 1, extractionAttempted := false } :=
  c6_empty_reply_500 "fen" [] { ok := true, errText := "", content := none }
    (by decide) (by decide) (Or.inl rfl)

/-- C7: the serialized history has exactly one entry per input pair, the
entry at index `i` is formatted from the pair at index `i` with ply
number `i + 1`, order is preserved (the lookup is index to index), the
user instruction embeds the serialized list, and the empty history gives
a well-formed user instruction with an empty enumeration. -/
theorem c7_user_instruction_enumerates_history (h : List HistEntry) (i : Nat) :
    (serializeHistory h).length = h.length ∧
    (serializeHistory h).get? i =
      (h.get? i).map (fun e => toString (i + 1) ++ ". " ++ e.fromSq ++ "-" ++ e.toSq) ∧
    userInstr h =
      "FEN: Move history: " ++ jsonStringifyArr (serializeHistory h) ++
        "\nRespond with one UCI move only." ∧
    userInstr [] = "FEN: Move history: []\nRespond with one UCI move only." := by
  refine ⟨mapWithIndex_length histFmt h 0, ?_, rfl, by decide⟩
  rw [serializeHistory, mapWithIndex_get? histFmt h 0 i, Nat.zero_add]
  rfl

/-- C8: every 200 outcome of the handler carries either an extracted move
that is a well-shaped four-or-five-character move token and no `raw`
field, or a null move together with the `raw` reply; `raw` is present
exactly when the move is null. -/
theorem c8_ok_response_shape (fen : Option String)
    (history : Option (List HistEntry)) (u : UpstreamResponse)
    (h200 : (aiMove fen history u).status = 200) :
    (∃ mv : String, (aiMove fen history u).body = .json (some mv) none ∧
        isMoveToken mv.data = true) ∨
    (∃ r : String, (aiMove fen history u).body = .json none (some r)) := by
  by_cases hf : fenPresent fen
  case neg => simp [aiMove, hf] at h200
  case pos =>
    cases history with
    | none => simp [aiMove, hf] at h200
    | some hs =>
      by_cases hok : u.ok
      case neg => simp [aiMove, hf, hok] at h200
      case pos =>
        cases hc : u.content with
        | none => simp [aiMove, hf, hok, hc] at h200
        | some reply =>
          by_cases hr : reply = ""
          case pos => simp [aiMove, hf, hok, hc, hr] at h200
          case neg =>
            cases hm : extractMove reply with
            | none =>
              right
              exact ⟨reply, by simp [aiMove, hf, hok, hc, hr, hm]⟩
            | some mv =>
              by_cases hmv : mv = ""
              case pos =>
                right
                exact ⟨reply, by simp [aiMove, hf, hok, hc, hr, hm, hmv]⟩
              case neg =>
                left
                exact ⟨mv, by simp [aiMove, hf, hok, hc, hr, hm, hmv],
                  extractMove_shape hm⟩

theorem c8_ok_response_shape_witness :
    (∃ mv : String,
        (aiMove (some "fen") (some [])
            { ok := true, errText := "", content := some "e2e4" }).body =
          .json (some mv) none ∧ isMoveToken mv.data = true) ∨
    (∃ r : String,
        (aiMove (some "fen") (some [])
            { ok := true, errText := "", content := some "e2e4" }).body =
          .json none (some r)) :=
  c8_ok_response_shape (some "fen") (some [])
    { ok := true, errText := "", content := some "e2e4" } (by decide)

/-- C9: a request with a present non-empty fen but an absent history is
answered 500 (the TypeError thrown by `history.map` is caught by the
top-level handler and its message returned), not 400, and no outbound
call is made: the history field is never validated before use. -/
theorem c9_missing_history_500 (fen : String) (u : UpstreamResponse)
    (hfen : fen ≠ "") :
    aiMove (some fen) none u =
      { status := 500, body := .text typeErrorMessage,
        upstreamCalls := 0, extractionAttempted := false } := by
  simp [aiMove, fenPresent, hfen]

theorem c9_missing_history_500_witness :
    aiMove (some "fen") none { ok := true, errText := "", content := some "e2e4" } =
      { status := 500, body := .text typeErrorMessage,
        upstreamCalls := 0, extractionAttempted := false } :=
  c9_missing_history_500 "fen" { ok := true, errText := "", content := some "e2e4" }
    (by decide)

/-- C10: whenever extraction succeeds, the returned move equals the
matched substring character for character: no string matched by the move
pattern can contain a hyphen, so the hyphen-replacement step is an
identity on every possible match. -/
theorem c10_hyphen_replacement_identity (s : String) (m : List Char)
    (h : scanMove none (trimChars s.data) = some m) :
    replaceFirstHyphen m = m ∧ ('-' ∉ m) ∧
      extractMove s = some (String.mk m) := by
  have ht := scanMove_isMoveToken none (trimChars s.data) m h
  have hnh := isMoveToken_no_hyphen ht
  have hid := replaceFirstHyphen_eq_of_no_hyphen hnh
  refine ⟨hid, fun hm => hnh _ hm rfl, ?_⟩
  simp only [extractMove, h, hid]

theorem c10_hyphen_replacement_identity_witness :
    replaceFirstHyphen ['e', '2', 'e', '4'] = ['e', '2', 'e', '4'] ∧
      ('-' ∉ ['e', '2', 'e', '4']) ∧
      extractMove "e2e4" = some (String.mk ['e', '2', 'e', '4']) :=
  c10_hyphen_replacement_identity "e2e4" ['e', '2', 'e', '4'] (by decide)
